import Mathlib

/-!
Verification development for the GCP-Jobs-agent pipeline (`src/main.py`).

The program is a linear ETL script: it paginates a job-search API per
location filter, normalizes each raw job entry into a fixed-key dict,
filters competitor companies by substring match on the company name,
deduplicates against the `job_id` column already in the spreadsheet, and
bulk-inserts the surviving rows.

Embedding conventions:
* A Python string-or-None value is `Option String` (`none` = Python `None`).
* A normalized job record (a Python dict with string keys) is an
  association list `List (String × Option String)`; `dictGet` models
  `dict.get(key, default)`.
* A raw API job entry is the structure `RawJob`; an absent JSON field is
  `none`.  `normalizeJob` returns `Option JobDict`: `none` models the
  `IndexError` raised by `job.get("apply_options", [{}])[0]` on an empty
  list.
* The paginated HTTP source is mocked as a list of `Except String
  SerpResponse` values consumed in order; `Except.error e` models a
  transport error or non-2xx response (`response.raise_for_status()`).
* The spreadsheet is mocked by the read result handed to
  `get_existing_job_ids` and by a list of `InsertEvent`s recording each
  bulk `insert_rows` call.
* Python `.upper()` is modelled by `strUpper` below (it agrees with
  Python on the ASCII data involved); `a in b` on strings is contiguous
  substring containment over the character lists.
-/

/-- Constant `MAX_JOBS_TO_FETCH = 500` from `main.py`. -/
def MAX_JOBS_TO_FETCH : Nat := 500

/-- Constant `RESULTS_PER_PAGE = 30` from `main.py`. -/
def RESULTS_PER_PAGE : Nat := 30

/-- Constant `COMPETITOR_NAMES = ["ITS"]` from `main.py`. -/
def COMPETITOR_NAMES : List String := ["ITS"]

/-- A Python value that is either a string or `None`. -/
abbrev PyVal := Option String

/-- A normalized job record: the Python dict built in the fetch loop,
as an insertion-ordered association list with unique keys. -/
abbrev JobDict := List (String × PyVal)

/-- Python `d.get(k, dflt)` on a dict. -/
def dictGet (d : JobDict) (k : String) (dflt : PyVal) : PyVal :=
  match d.lookup k with
  | some v => v
  | none => dflt

/-- True when `needle` occurs at the very start of `hay`. -/
def charsStartWith : List Char → List Char → Bool
  | [], _ => true
  | _ :: _, [] => false
  | a :: as, b :: bs => a == b && charsStartWith as bs

/-- True when `needle` occurs contiguously anywhere in `hay`. -/
def charsContain (needle : List Char) : List Char → Bool
  | [] => charsStartWith needle []
  | b :: bs => charsStartWith needle (b :: bs) || charsContain needle bs

/-- Python `needle in hay` for strings: contiguous substring containment. -/
def strContains (hay needle : String) : Bool :=
  charsContain needle.data hay.data

/-- Python `s.upper()`, modelled character by character (agrees with
`String.toUpper` and, on the ASCII data involved, with Python). -/
def strUpper (s : String) : String :=
  ⟨s.data.map Char.toUpper⟩

/-- Function `filter_competitors` from `main.py` (lines 40-55), with the global
`COMPETITOR_NAMES` passed explicitly.  A record is kept unless its
`job.get("company_name", "")`, uppercased, contains some uppercased
keyword; the loop with the `is_competitor` flag and `break` is the
`List.any` below, and appending the survivors preserves order.
(In the pipeline the records are normalizer output, which stores the
company under the key `"Company Name"`, so the `"company_name"` lookup
always yields the default `""`.) -/
def filter_competitors (competitor_names : List String) (jobs_list : List JobDict) :
    List JobDict :=
  let competitor_keywords := competitor_names.map strUpper
  jobs_list.filter (fun job =>
    let company_name := strUpper ((dictGet job "company_name" (some "")).getD "")
    !(competitor_keywords.any (fun keyword => strContains company_name keyword)))

/-- One entry of a raw job's `apply_options` array. -/
structure ApplyOption where
  link : Option String
deriving DecidableEq, Repr

/-- The raw job's `detected_extensions` object. -/
structure DetectedExtensions where
  salary : Option String
deriving DecidableEq, Repr

/-- A raw job object from the search API's `jobs_results` array; `none`
means the field is absent. -/
structure RawJob where
  job_id : Option String := none
  title : Option String := none
  company_name : Option String := none
  location : Option String := none
  description : Option String := none
  share_link : Option String := none
  detected_extensions : Option DetectedExtensions := none
  apply_options : Option (List ApplyOption) := none
deriving DecidableEq, Repr

/-- The normalization step from the fetch loop of `fetch_and_process_jobs`
(`main.py` lines 128-139): builds the fixed-key dict appended to
`aggregated_raw_job_data`.  Returns `none` exactly when
`job.get("apply_options", [{}])[0]` raises `IndexError`, i.e. when
`apply_options` is present and is the empty list. -/
def normalizeJob (job : RawJob) : Option JobDict :=
  let job_description := job.description.getD "No description provided"
  match job.apply_options.getD [⟨none⟩] with
  | [] => none
  | first :: _ =>
    some [
      ("job_id", job.job_id),
      ("Title", job.title),
      ("Company Name", job.company_name),
      ("Location of Job", some (job.location.getD "N/A")),
      ("Compensation", some ((job.detected_extensions.bind DetectedExtensions.salary).getD "N/A")),
      ("Source URL", some (job.share_link.getD "N/A")),
      ("Apply Link", some (first.link.getD (job.share_link.getD "N/A"))),
      ("Job Description", some job_description)
    ]

/-- Normalize every entry of one page, in order; `none` if any entry
raises (the exception aborts the `for` loop and is caught by the outer
`except`, discarding the partial appends together with the run). -/
def normalizePage : List RawJob → Option (List JobDict)
  | [] => some []
  | j :: rest =>
    match normalizeJob j, normalizePage rest with
    | some r, some rs => some (r :: rs)
    | _, _ => none

/-- One response from the search API, as consumed by the fetch loop:
`jobs_results` (a missing key behaves like `[]`) and the
`serpapi_pagination.next_page_token` field. -/
structure SerpResponse where
  jobs_results : List RawJob
  next_page_token : Option String
deriving DecidableEq, Repr

/-- A mocked paged source: successive results of `requests.get`, in the
order the loop issues them.  `Except.error e` models a transport error or
`raise_for_status` failure with message `e`. -/
abbrev PageSource := List (Except String SerpResponse)

/-- Why the `while True` pagination loop broke. -/
inductive StopReason where
  /-- Field `jobs_results` missing or empty: "No more results found". -/
  | noResults
  /-- Python `len(aggregated_raw_job_data) >= MAX_JOBS_TO_FETCH` after appending. -/
  | capReached
  /-- falsy `next_page_token`: "Pagination complete". -/
  | noToken
deriving DecidableEq, Repr

/-- Outcome of one filter's pagination loop. -/
inductive FetchOutcome where
  /-- The loop broke normally with the grown accumulator. -/
  | done (acc : List JobDict) (reason : StopReason)
  /-- The `except` branch fired: the run returns the Step 1 error with
  the current `next_page_token` and exception text. -/
  | fatal (token : Option String) (msg : String)
  /-- Model artifact: the mocked source ran out of responses while the
  loop would have issued another request. -/
  | stuck (acc : List JobDict) (token : Option String)
deriving DecidableEq, Repr

/-- The `while True` pagination loop of `fetch_and_process_jobs`
(`main.py` lines 104-157) for one filter, consuming the mocked source in
order.  `tok` is the current `next_page_token` (`none` initially), `acc`
is `aggregated_raw_job_data`, which is shared across the filters of a
group.  Mirrors the source order: empty-results check, append+normalize,
cap check, token extraction (Python truthiness: `None` and `""` both
stop). -/
def fetchLoop (cap : Nat) : PageSource → Option String → List JobDict → FetchOutcome
  | [], tok, acc => .stuck acc tok
  | r :: rest, tok, acc =>
    match r with
    | .error e => .fatal tok e
    | .ok data =>
      if data.jobs_results = [] then
        .done acc .noResults
      else
        match normalizePage data.jobs_results with
        | none => .fatal tok "list index out of range"
        | some recs =>
          if cap ≤ (acc ++ recs).length then
            .done (acc ++ recs) .capReached
          else if (data.next_page_token.getD "") = "" then
            .done (acc ++ recs) .noToken
          else
            fetchLoop cap rest (some (data.next_page_token.getD "")) (acc ++ recs)

/-- Outcome of running the pagination loop over every filter of a group. -/
inductive GroupFetch where
  | ok (acc : List JobDict)
  | fatal (token : Option String) (msg : String)
  | stuck (acc : List JobDict) (token : Option String)
deriving DecidableEq, Repr

/-- The `for filter_config in filter_list` loop: one `fetchLoop` per
filter with `next_page_token = None` reset, all feeding the single
`aggregated_raw_job_data` accumulator of the group. -/
def groupFetch (cap : Nat) : List PageSource → List JobDict → GroupFetch
  | [], acc => .ok acc
  | src :: rest, acc =>
    match fetchLoop cap src none acc with
    | .done acc' _ => groupFetch cap rest acc'
    | .fatal t e => .fatal t e
    | .stuck a t => .stuck a t

/-- Function `get_existing_job_ids` from `main.py` (lines 58-67): the read result
is the full `col_values(1)` column (header included) or a failure; on
success the header is dropped, on any exception the empty set is
returned.  Membership in the Python `set` equals membership in this
list. -/
def get_existing_job_ids (readResult : Except String (List String)) : List String :=
  match readResult with
  | .ok column => column.drop 1
  | .error _ => []

/-- The dedup condition from `main.py` lines 166-168:
`job.get("job_id") and job["job_id"] not in existing_ids`.  A missing
key or `None` value is falsy, and so is the empty string. -/
def passesDedup (existing_ids : List String) (job : JobDict) : Bool :=
  match dictGet job "job_id" none with
  | none => false
  | some s => !(s = "") && !(existing_ids.contains s)

/-- The dedup loop building `new_jobs_to_add` (`main.py` lines 165-168),
appending each passing record in order. -/
def dedupNewJobs (existing_ids : List String) : List JobDict → List JobDict
  | [] => []
  | job :: rest =>
    if passesDedup existing_ids job then
      job :: dedupNewJobs existing_ids rest
    else
      dedupNewJobs existing_ids rest

/-- The column list from `write_jobs_to_sheet` (`main.py` line 76). -/
def sheetColumns : List String :=
  ["job_id", "Title", "Company Name", "Source URL", "Location of Job",
   "Compensation", "Job Description", "Apply Link"]

/-- One row of `data_to_append`: `[job.get(col, "") for col in columns]`. -/
def rowOfJob (job : JobDict) : List PyVal :=
  sheetColumns.map (fun col => dictGet job col (some ""))

/-- One recorded `sheet.insert_rows` call. -/
structure InsertEvent where
  worksheet : String
  rows : List (List PyVal)
deriving DecidableEq, Repr

/-- Function `write_jobs_to_sheet` from `main.py` (lines 70-84): returns the
bulk-insert events performed (none for empty input, one otherwise) and
the row count returned to the caller. -/
def write_jobs_to_sheet (jobs_to_write : List JobDict) (worksheet_name : String) :
    List InsertEvent × Nat :=
  if jobs_to_write = [] then
    ([], 0)
  else
    ([⟨worksheet_name, jobs_to_write.map rowOfJob⟩], jobs_to_write.length)

deriving instance DecidableEq for Except

/-- Python `f"...{x}..."` rendering of a string-or-None value. -/
def pyStr (t : Option String) : String :=
  match t with
  | none => "None"
  | some s => s

/-- The Step 1 error text returned from the fetch loop's `except`. -/
def fetchErrMsg (token : Option String) (e : String) : String :=
  let ts := pyStr token
  s!"Error during Step 1 (Talent API Fetch) with token {ts}: {e}"

/-- The success text returned after the group loop (`main.py` line 178),
built from the last group's counts. -/
def successMsg (r f w : Nat) : String :=
  s!"SUCCESS: Agent run complete. Fetched {r} raw jobs, found {f} non-competitors, and added {w} new unique jobs to the sheet."

/-- The Step 3 error text (`main.py` line 176). -/
def writeErrMsg (e : String) : String :=
  s!"Error during Step 3 (Google Sheets Write): {e}"

/-- The environment one target group runs against: its worksheet name,
one mocked page source per `filter_config`, the `col_values(1)` read
result, and whether `insert_rows` raises. -/
structure GroupEnv where
  worksheet_name : String
  sources : List PageSource
  readResult : Except String (List String)
  writeError : Option String
deriving DecidableEq, Repr

/-- Result of processing one group in the orchestration loop. -/
inductive GroupStep where
  /-- Group completed: its insert events and its
  (raw fetched, post-filter, rows written) counts. -/
  | ok (events : List InsertEvent) (raw filtered written : Nat)
  /-- An early `return <body>, 500` fired inside this group. -/
  | fail (body : String)
  /-- Model artifact propagated from `fetchLoop`. -/
  | stuck
deriving DecidableEq, Repr

/-- One iteration of the `for worksheet_name, filter_list in
TARGET_LOCATIONS.items()` loop (`main.py` lines 94-176): fetch all
filters into one accumulator, competitor-filter, read existing ids,
dedup, and write. -/
def processGroup (cap : Nat) (competitor_names : List String) (g : GroupEnv) : GroupStep :=
  match groupFetch cap g.sources [] with
  | .fatal t e => .fail (fetchErrMsg t e)
  | .stuck _ _ => .stuck
  | .ok aggregated_raw_job_data =>
    let filtered_jobs := filter_competitors competitor_names aggregated_raw_job_data
    let existing_ids := get_existing_job_ids g.readResult
    let new_jobs_to_add := dedupNewJobs existing_ids filtered_jobs
    if new_jobs_to_add = [] then
      .ok [] aggregated_raw_job_data.length filtered_jobs.length 0
    else
      match g.writeError with
      | some e => .fail (writeErrMsg e)
      | none =>
        let written := write_jobs_to_sheet new_jobs_to_add g.worksheet_name
        .ok written.1 aggregated_raw_job_data.length filtered_jobs.length written.2

/-- The final outcome of one HTTP invocation: response body, status code
(200 implicit on the success path, 500 on every error return), and the
insert events performed before returning. -/
structure RunOutcome where
  body : String
  status : Nat
  writes : List InsertEvent
deriving DecidableEq, Repr

/-- The orchestration loop of `fetch_and_process_jobs`: processes groups
in order, accumulating insert events; `counts` carries the loop-local
variables `(len(aggregated_raw_job_data), len(filtered_jobs),
rows_written)` of the most recently completed group, which the final
success string reads (the model is used with at least one group, as in
the program's hard-coded `TARGET_LOCATIONS`).  `none` is the model
artifact for an exhausted mocked source. -/
def runGroups (cap : Nat) (competitor_names : List String) :
    List GroupEnv → List InsertEvent → Nat × Nat × Nat → Option RunOutcome
  | [], events, (r, f, w) => some ⟨successMsg r f w, 200, events⟩
  | g :: rest, events, _ =>
    match processGroup cap competitor_names g with
    | .ok ev r f w => runGroups cap competitor_names rest (events ++ ev) (r, f, w)
    | .fail body => some ⟨body, 500, events⟩
    | .stuck => none

/-- One whole run of `fetch_and_process_jobs` after a successful client
initialization. -/
def runAgent (cap : Nat) (competitor_names : List String) (groups : List GroupEnv) :
    Option RunOutcome :=
  runGroups cap competitor_names groups [] (0, 0, 0)

/-- Helper for stating C8/C1: the insert events produced by a list of
groups that all complete without an error return. -/
def groupsEvents (cap : Nat) (competitor_names : List String) :
    List GroupEnv → Option (List InsertEvent)
  | [] => some []
  | g :: rest =>
    match processGroup cap competitor_names g with
    | .ok ev _ _ _ => (groupsEvents cap competitor_names rest).map (fun l => ev ++ l)
    | _ => none

/-- Helper for stating C4: every successful response in the source has at
most `P` entries in `jobs_results`. -/
def pagesBounded (P : Nat) (src : PageSource) : Bool :=
  src.all (fun r =>
    match r with
    | .error _ => true
    | .ok resp => resp.jobs_results.length ≤ P)

/-! ## Concrete inputs used by counterexamples and witnesses -/

/-- The raw job of the spec's competitor-filter example: company name
"abcITSxyz". -/
def rawAbcITS : RawJob :=
  { job_id := some "j1", title := some "T", company_name := some "abcITSxyz" }

/-- The normalizer's output on `rawAbcITS`. -/
def recAbcITS : JobDict :=
  [("job_id", some "j1"), ("Title", some "T"), ("Company Name", some "abcITSxyz"),
   ("Location of Job", some "N/A"), ("Compensation", some "N/A"),
   ("Source URL", some "N/A"), ("Apply Link", some "N/A"),
   ("Job Description", some "No description provided")]

/-- A raw job with `apply_options` present but equal to the empty list. -/
def rawEmptyApplyOptions : RawJob := { apply_options := some [] }

/-- The normalizer's output on the all-fields-absent raw job. -/
def recAllDefaults : JobDict :=
  [("job_id", none), ("Title", none), ("Company Name", none),
   ("Location of Job", some "N/A"), ("Compensation", some "N/A"),
   ("Source URL", some "N/A"), ("Apply Link", some "N/A"),
   ("Job Description", some "No description provided")]

/-! ## Shared lemmas -/

/-- Normalization is per-entry, so a successfully normalized page has as
many records as the page has raw entries. -/
theorem normalizePage_length :
    ∀ (l : List RawJob) (recs : List JobDict),
      normalizePage l = some recs → recs.length = l.length := by
  intro l
  induction l with
  | nil =>
    intro recs h
    simp only [normalizePage, Option.some.injEq] at h
    subst h
    rfl
  | cons j rest ih =>
    intro recs h
    simp only [normalizePage] at h
    cases hj : normalizeJob j with
    | none => rw [hj] at h; exact absurd h (by simp)
    | some r =>
      cases hr : normalizePage rest with
      | none => rw [hj, hr] at h; exact absurd h (by simp)
      | some rs =>
        rw [hj, hr] at h
        simp only [Option.some.injEq] at h
        subst h
        simp [ih rs hr]

/-- The dedup loop equals a filter by the pass condition. -/
theorem dedupNewJobs_eq_filter (existing_ids : List String) :
    ∀ jobs : List JobDict,
      dedupNewJobs existing_ids jobs = jobs.filter (passesDedup existing_ids) := by
  intro jobs
  induction jobs with
  | nil => rfl
  | cons j rest ih =>
    cases h : passesDedup existing_ids j with
    | true => simp [dedupNewJobs, List.filter_cons, h, ih]
    | false => simp [dedupNewJobs, List.filter_cons, h, ih]

/-! ## Claims -/

/-- Claim C2 (code bug): the spec says a normalizer-produced record whose
company name case-insensitively contains a blocklist keyword is dropped —
in particular company `"abcITSxyz"` under blocklist `["its"]`.  The code
does not drop it: `filter_competitors` reads the key `"company_name"`,
but the normalizer stores the company under `"Company Name"`, so the
filter always compares the keywords against `""` and keeps every
normalized record.  This theorem evaluates the code at the failing
input: the record's company name does contain the keyword (conjunct 3),
yet the filter keeps the record (conjunct 4) because its
`"company_name"` lookup yields the default `""` (conjunct 5). -/
theorem C2_filter_misses_normalized_company :
    normalizeJob rawAbcITS = some recAbcITS
    ∧ dictGet recAbcITS "Company Name" none = some "abcITSxyz"
    ∧ strContains (strUpper "abcITSxyz") (strUpper "its") = true
    ∧ filter_competitors ["its"] [recAbcITS] = [recAbcITS]
    ∧ dictGet recAbcITS "company_name" (some "") = some "" := by
  refine ⟨rfl, rfl, by decide, by decide, rfl⟩

/-- Claim C3, counterexample: on a raw job whose `apply_options` field is
present but equal to the empty list, the normalization step does not
return a JobRecord — `job.get("apply_options", [{}])[0]` raises
`IndexError` (modelled as `none`), contradicting "returns a JobRecord
without raising ... including the case where a field is present but
empty". -/
theorem C3_empty_apply_options_raises :
    normalizeJob rawEmptyApplyOptions = none := rfl

/-- Claim C3, amended: for every raw job object whose `apply_options`
field, when present, is non-empty, the normalization step returns a
JobRecord without raising; every missing field degrades to its
documented default instead of failing. -/
theorem C3_normalize_total (job : RawJob) (h : job.apply_options ≠ some []) :
    (normalizeJob job).isSome = true := by
  unfold normalizeJob
  cases hopt : job.apply_options with
  | none => simp
  | some l =>
    cases l with
    | nil => exact absurd hopt h
    | cons o t => simp

/-- Witness for `C3_normalize_total` at the all-fields-absent raw job. -/
theorem C3_normalize_total_witness :
    ({} : RawJob).apply_options ≠ some [] ∧ (normalizeJob {}).isSome = true :=
  ⟨by decide, C3_normalize_total {} (by decide)⟩

/-- Claim C5: a record passes the dedup step iff its `job_id` is
non-missing, non-empty and not a member of the existing-id set; the
output is the order-preserving filter of the input by exactly that
condition (so intra-batch duplicates are not suppressed).  The second
conjunct is the contract's concrete case: existing ids
`{"a","b"}` and incoming ids `["a","c","c",""]` keep exactly the two
records with id `"c"`, in order. -/
theorem C5_dedup_gate :
    (∀ (existing_ids : List String) (jobs : List JobDict),
      dedupNewJobs existing_ids jobs = jobs.filter (fun job =>
        match dictGet job "job_id" none with
        | none => false
        | some s => !(s = "") && !(existing_ids.contains s)))
    ∧ dedupNewJobs ["a", "b"]
        [[("job_id", some "a")],
         [("job_id", some "c"), ("Title", some "first")],
         [("job_id", some "c"), ("Title", some "second")],
         [("job_id", some "")]]
      = [[("job_id", some "c"), ("Title", some "first")],
         [("job_id", some "c"), ("Title", some "second")]] := by
  refine ⟨?_, by decide⟩
  intro existing_ids jobs
  exact dedupNewJobs_eq_filter existing_ids jobs

/-- Claim C9: a failed existing-id read is recovered locally —
`get_existing_job_ids` returns the empty set, and the group then
processes exactly as it would after reading an empty id column, rather
than aborting the run. -/
theorem C9_read_failure_recovered (cap : Nat) (competitor_names : List String)
    (g : GroupEnv) (e : String) (hread : g.readResult = .error e) :
    get_existing_job_ids g.readResult = []
    ∧ processGroup cap competitor_names g
        = processGroup cap competitor_names { g with readResult := .ok [] } := by
  constructor
  · rw [hread]
    rfl
  · unfold processGroup
    rw [hread]
    rfl

/-- Witness for `C9_read_failure_recovered` on a one-filter group whose
read fails. -/
theorem C9_read_failure_recovered_witness :
    (GroupEnv.mk "W" [[Except.ok ⟨[{ job_id := some "id1" }], none⟩]]
        (Except.error "HTTP 503") none).readResult = .error "HTTP 503"
    ∧ get_existing_job_ids (GroupEnv.mk "W"
        [[Except.ok ⟨[{ job_id := some "id1" }], none⟩]]
        (Except.error "HTTP 503") none).readResult = []
    ∧ processGroup 500 ["ITS"] (GroupEnv.mk "W"
        [[Except.ok ⟨[{ job_id := some "id1" }], none⟩]]
        (Except.error "HTTP 503") none)
      = processGroup 500 ["ITS"] { GroupEnv.mk "W"
          [[Except.ok ⟨[{ job_id := some "id1" }], none⟩]]
          (Except.error "HTTP 503") none with readResult := .ok [] } := by
  refine ⟨rfl, ?_⟩
  exact C9_read_failure_recovered 500 ["ITS"] _ "HTTP 503" rfl

/-- Claim C10: for every non-empty new-records sequence the Sheet Writer
performs one bulk insert of one row per record and returns the record
count; each row lists exactly the eight columns in the order `job_id,
Title, Company Name, Source URL, Location of Job, Compensation, Job
Description, Apply Link`, and a missing column key yields the
empty-string cell. -/
theorem C10_sheet_writer (jobs : List JobDict) (ws : String) (h : jobs ≠ []) :
    write_jobs_to_sheet jobs ws = ([⟨ws, jobs.map rowOfJob⟩], jobs.length)
    ∧ (∀ job : JobDict, rowOfJob job =
        [dictGet job "job_id" (some ""), dictGet job "Title" (some ""),
         dictGet job "Company Name" (some ""), dictGet job "Source URL" (some ""),
         dictGet job "Location of Job" (some ""), dictGet job "Compensation" (some ""),
         dictGet job "Job Description" (some ""), dictGet job "Apply Link" (some "")])
    ∧ (∀ job : JobDict, (rowOfJob job).length = 8)
    ∧ (∀ (job : JobDict) (col : String), job.lookup col = none →
        dictGet job col (some "") = some "") := by
  refine ⟨?_, fun job => rfl, fun job => rfl, ?_⟩
  · unfold write_jobs_to_sheet
    rw [if_neg h]
  · intro job col hcol
    unfold dictGet
    rw [hcol]

/-- Witness for `C10_sheet_writer` on a one-record batch that is missing
most column keys. -/
theorem C10_sheet_writer_witness :
    ([[("Title", some "t")]] : List JobDict) ≠ []
    ∧ write_jobs_to_sheet [[("Title", some "t")]] "W"
        = ([⟨"W", [[("Title", some "t")]].map rowOfJob⟩], 1)
    ∧ rowOfJob [("Title", some "t")]
        = [some "", some "t", some "", some "", some "", some "", some "", some ""] := by
  refine ⟨by decide, ((C10_sheet_writer [[("Title", some "t")]] "W" (by decide)).1), by decide⟩

/-- Reading of the spec's words for the apply link, for comparison with
the code: "first available apply-option link, falling back to
`source_url`, falling back to `N/A`" — the first option that has a link
at all. -/
def applyLinkSpec (job : RawJob) : String :=
  match (job.apply_options.getD []).findSome? ApplyOption.link with
  | some l => l
  | none => job.share_link.getD "N/A"

/-- A raw job whose first apply option has no link while the second one
does, and whose other fields are absent. -/
def rawSecondOptionLink : RawJob :=
  { apply_options := some [⟨none⟩, ⟨some "x"⟩] }

/-- Claim C7, counterexample: on a raw job with apply options
`[{}, {link: "x"}]` and no `share_link`, the first available
apply-option link is `"x"` (the spec's fallback chain, `applyLinkSpec`),
but the code consults only `apply_options[0]`, finds no link there, and
degrades straight to the `source_url` fallback `"N/A"`. -/
theorem C7_apply_link_counterexample :
    applyLinkSpec rawSecondOptionLink = "x"
    ∧ Option.map (fun r => dictGet r "Apply Link" none) (normalizeJob rawSecondOptionLink)
        = some (some "N/A")
    ∧ ("N/A" : String) ≠ "x" := by
  refine ⟨rfl, rfl, by decide⟩

/-- Claim C7, amended: every missing `location`, `compensation`,
`description`, `source_url` degrades to exactly the documented default
(`"N/A"`, `"N/A"`, the placeholder text, `"N/A"`), and the apply link is
the first apply option's link — only `apply_options[0]` is consulted —
falling back to `source_url`, falling back to `"N/A"`. -/
theorem C7_normalizer_defaults (job : RawJob) (r : JobDict)
    (h : normalizeJob job = some r) :
    (job.location = none → dictGet r "Location of Job" none = some "N/A")
    ∧ (job.detected_extensions.bind DetectedExtensions.salary = none →
        dictGet r "Compensation" none = some "N/A")
    ∧ (job.description = none →
        dictGet r "Job Description" none = some "No description provided")
    ∧ (job.share_link = none → dictGet r "Source URL" none = some "N/A")
    ∧ (job.apply_options = none →
        dictGet r "Apply Link" none = some (job.share_link.getD "N/A"))
    ∧ (∀ (o : ApplyOption) (opts : List ApplyOption),
        job.apply_options = some (o :: opts) →
        dictGet r "Apply Link" none = some (o.link.getD (job.share_link.getD "N/A"))) := by
  unfold normalizeJob at h
  cases hopt : job.apply_options with
  | none =>
    rw [hopt] at h
    simp only [Option.getD_none, Option.some.injEq] at h
    subst h
    refine ⟨fun hl => by rw [hl]; rfl,
            fun hc => by rw [hc]; rfl,
            fun hd => by rw [hd]; rfl,
            fun hs => by rw [hs]; rfl,
            fun _ => rfl,
            fun o opts ho => ?_⟩
    exact Option.noConfusion ho
  | some l =>
    cases l with
    | nil =>
      rw [hopt] at h
      simp only [Option.getD_some] at h
      exact Option.noConfusion h
    | cons o opts =>
      rw [hopt] at h
      simp only [Option.getD_some, Option.some.injEq] at h
      subst h
      refine ⟨fun hl => by rw [hl]; rfl,
              fun hc => by rw [hc]; rfl,
              fun hd => by rw [hd]; rfl,
              fun hs => by rw [hs]; rfl,
              fun hno => ?_,
              fun o' opts' ho' => ?_⟩
      · exact Option.noConfusion hno
      · have h1 : o = o' := (List.cons.inj (Option.some.inj ho')).1
        rw [← h1]
        rfl

/-- Witness for `C7_normalizer_defaults` at the all-fields-absent raw
job. -/
theorem C7_normalizer_defaults_witness :
    normalizeJob {} = some recAllDefaults
    ∧ dictGet recAllDefaults "Location of Job" none = some "N/A"
    ∧ dictGet recAllDefaults "Compensation" none = some "N/A"
    ∧ dictGet recAllDefaults "Job Description" none = some "No description provided"
    ∧ dictGet recAllDefaults "Source URL" none = some "N/A"
    ∧ dictGet recAllDefaults "Apply Link" none = some "N/A" := by
  have h := C7_normalizer_defaults {} recAllDefaults rfl
  exact ⟨rfl, h.1 rfl, h.2.1 rfl, h.2.2.1 rfl, h.2.2.2.1 rfl, h.2.2.2.2.1 rfl⟩

/-- Invariant of the pagination loop: entering below the cap, any normal
stop lands strictly below `cap + P` when all pages carry at most `P`
entries, and the accumulated count is `≥ cap` exactly on a cap stop. -/
theorem fetchLoop_done_bounds (cap P : Nat) :
    ∀ (src : PageSource) (tok : Option String) (acc : List JobDict),
      pagesBounded P src = true → acc.length < cap →
      ∀ (acc' : List JobDict) (reason : StopReason),
        fetchLoop cap src tok acc = .done acc' reason →
        acc'.length < cap + P
        ∧ (reason = .capReached → cap ≤ acc'.length)
        ∧ (reason ≠ .capReached → acc'.length < cap) := by
  intro src
  induction src with
  | nil =>
    intro tok acc hP hacc acc' reason h
    exact absurd h (by simp [fetchLoop])
  | cons hd tl ih =>
    intro tok acc hP hacc acc' reason h
    rw [pagesBounded, List.all_cons, Bool.and_eq_true] at hP
    cases hd with
    | error e => exact absurd h (by simp [fetchLoop])
    | ok resp =>
      simp only [fetchLoop] at h
      by_cases hempty : resp.jobs_results = []
      · rw [if_pos hempty] at h
        injection h with h1 h2
        subst h1
        subst h2
        refine ⟨Nat.lt_of_lt_of_le hacc (Nat.le_add_right cap P), ?_, fun _ => hacc⟩
        intro hr
        exact StopReason.noConfusion hr
      · rw [if_neg hempty] at h
        cases hn : normalizePage resp.jobs_results with
        | none =>
          simp only [hn] at h
          exact FetchOutcome.noConfusion h
        | some recs =>
          simp only [hn] at h
          have hrecP : recs.length ≤ P := by
            have hlen := normalizePage_length _ _ hn
            have hb : resp.jobs_results.length ≤ P := by simpa using hP.1
            omega
          by_cases hcap : cap ≤ (acc ++ recs).length
          · rw [if_pos hcap] at h
            injection h with h1 h2
            subst h1
            subst h2
            refine ⟨?_, fun _ => hcap, fun hr => absurd rfl hr⟩
            rw [List.length_append]
            omega
          · rw [if_neg hcap] at h
            by_cases htok : (resp.next_page_token.getD "") = ""
            · rw [if_pos htok] at h
              injection h with h1 h2
              subst h1
              subst h2
              have hlt : (acc ++ recs).length < cap := Nat.lt_of_not_le hcap
              refine ⟨Nat.lt_of_lt_of_le hlt (Nat.le_add_right cap P), ?_, fun _ => hlt⟩
              intro hr
              exact StopReason.noConfusion hr
            · rw [if_neg htok] at h
              exact ih (some (resp.next_page_token.getD "")) (acc ++ recs)
                hP.2 (Nat.lt_of_not_le hcap) acc' reason h

/-- Claim C4: entering a filter's pagination loop below the cap, the
loop stops exactly by one of the three conditions.  Conjunct 1: any
normal stop classifies — on a cap stop the accumulated count has reached
the cap, on any other stop it is still below it, and since the cap is
checked only after the full page is appended the final count exceeds the
cap by less than one page size (`< cap + P` for pages of at most `P`
entries).  Conjuncts 2-4 are the three boundaries: an empty page stops
with nothing appended, a page pushing the count to the cap stops with
the full page appended, and a missing next-page token after a non-empty
page below the cap stops the pagination. -/
theorem C4_pagination_stops (cap P : Nat) (src : PageSource) (tok : Option String)
    (acc : List JobDict) (hP : pagesBounded P src = true) (hacc : acc.length < cap) :
    (∀ (acc' : List JobDict) (reason : StopReason),
        fetchLoop cap src tok acc = .done acc' reason →
        acc'.length < cap + P
        ∧ (reason = .capReached → cap ≤ acc'.length)
        ∧ (reason ≠ .capReached → acc'.length < cap))
    ∧ (∀ (resp : SerpResponse) (rest : PageSource),
        src = Except.ok resp :: rest → resp.jobs_results = [] →
        fetchLoop cap src tok acc = .done acc .noResults)
    ∧ (∀ (resp : SerpResponse) (rest : PageSource) (recs : List JobDict),
        src = Except.ok resp :: rest →
        normalizePage resp.jobs_results = some recs → resp.jobs_results ≠ [] →
        cap ≤ acc.length + recs.length →
        fetchLoop cap src tok acc = .done (acc ++ recs) .capReached)
    ∧ (∀ (resp : SerpResponse) (rest : PageSource) (recs : List JobDict),
        src = Except.ok resp :: rest →
        normalizePage resp.jobs_results = some recs → resp.jobs_results ≠ [] →
        acc.length + recs.length < cap → resp.next_page_token.getD "" = "" →
        fetchLoop cap src tok acc = .done (acc ++ recs) .noToken) := by
  refine ⟨fetchLoop_done_bounds cap P src tok acc hP hacc, ?_, ?_, ?_⟩
  · intro resp rest hsrc hempty
    subst hsrc
    simp only [fetchLoop]
    rw [if_pos hempty]
  · intro resp rest recs hsrc hn hne hcap
    subst hsrc
    simp only [fetchLoop, hn]
    rw [if_neg hne, if_pos (by rw [List.length_append]; exact hcap)]
  · intro resp rest recs hsrc hn hne hcap htok
    subst hsrc
    simp only [fetchLoop, hn]
    rw [if_neg hne, if_neg (by rw [List.length_append]; omega), if_pos htok]

/-- The response used by the C4 witness: two raw jobs and a token. -/
def respC4 : SerpResponse := ⟨[{}, {}], some "t2"⟩

/-- Witness for `C4_pagination_stops` with cap 2 and page bound 3: the
two-entry page pushes the count to the cap, so the loop stops by the cap
with the full page appended, ignoring the present token. -/
theorem C4_pagination_stops_witness :
    pagesBounded 3 [Except.ok respC4] = true
    ∧ ([] : List JobDict).length < 2
    ∧ fetchLoop 2 [Except.ok respC4] none []
        = .done [recAllDefaults, recAllDefaults] .capReached := by
  refine ⟨by decide, by decide, ?_⟩
  have h := C4_pagination_stops 2 3 [Except.ok respC4] none [] (by decide) (by decide)
  exact h.2.2.1 respC4 [] [recAllDefaults, recAllDefaults] rfl (by decide) (by decide)
    (by decide)

/-- Claim C6 (implicit): the fetch cap is enforced on the single
accumulator shared by all of a group's filters.  If the group total has
already reached the cap when a filter starts, that filter still issues
one request and appends the full first page (conjunct 1 counts it)
before its loop stops by the cap; the group fetch then moves on to the
remaining filters with the accumulator grown by that page. -/
theorem C6_shared_accumulator (cap : Nat) (acc recs : List JobDict)
    (resp : SerpResponse) (rest : PageSource) (tok : Option String)
    (moreFilters : List PageSource)
    (hcap : cap ≤ acc.length) (hne : resp.jobs_results ≠ [])
    (hn : normalizePage resp.jobs_results = some recs) :
    recs.length = resp.jobs_results.length
    ∧ fetchLoop cap (Except.ok resp :: rest) tok acc = .done (acc ++ recs) .capReached
    ∧ groupFetch cap ((Except.ok resp :: rest) :: moreFilters) acc
        = groupFetch cap moreFilters (acc ++ recs) := by
  have hstep : ∀ t : Option String,
      fetchLoop cap (Except.ok resp :: rest) t acc = .done (acc ++ recs) .capReached := by
    intro t
    simp only [fetchLoop, hn]
    rw [if_neg hne,
      if_pos (by rw [List.length_append]; exact Nat.le_trans hcap (Nat.le_add_right _ _))]
  refine ⟨normalizePage_length _ _ hn, hstep tok, ?_⟩
  simp only [groupFetch, hstep none]

/-- Witness for `C6_shared_accumulator`: a group already at the cap of 2
whose next filter returns a one-job page. -/
theorem C6_shared_accumulator_witness :
    2 ≤ ([recAllDefaults, recAllDefaults] : List JobDict).length
    ∧ (SerpResponse.mk [{}] none).jobs_results ≠ []
    ∧ normalizePage (SerpResponse.mk [{}] none).jobs_results = some [recAllDefaults]
    ∧ fetchLoop 2 [Except.ok (SerpResponse.mk [{}] none)] none
        [recAllDefaults, recAllDefaults]
        = .done [recAllDefaults, recAllDefaults, recAllDefaults] .capReached := by
  refine ⟨by decide, by decide, by decide, ?_⟩
  have h := C6_shared_accumulator 2 [recAllDefaults, recAllDefaults] [recAllDefaults]
      (SerpResponse.mk [{}] none) [] none [] (by decide) (by decide) (by decide)
  exact h.2.1

/-- Threading lemma: if every group before a fetch-fatal group completes
with events `evs1`, the run returns the Step 1 error with status 500 and
keeps exactly the events written so far, for any starting events and
counts. -/
theorem runGroups_append_fatal (cap : Nat) (cl : List String) (gbad : GroupEnv)
    (gs2 : List GroupEnv) (t : Option String) (e : String)
    (hbad : groupFetch cap gbad.sources [] = .fatal t e) :
    ∀ (gs1 : List GroupEnv) (evs0 evs1 : List InsertEvent) (counts : Nat × Nat × Nat),
      groupsEvents cap cl gs1 = some evs1 →
      runGroups cap cl (gs1 ++ gbad :: gs2) evs0 counts
        = some ⟨fetchErrMsg t e, 500, evs0 ++ evs1⟩ := by
  intro gs1
  induction gs1 with
  | nil =>
    intro evs0 evs1 counts h1
    simp only [groupsEvents, Option.some.injEq] at h1
    subst h1
    simp only [List.nil_append, List.append_nil, runGroups, processGroup, hbad]
  | cons g gs ih =>
    intro evs0 evs1 counts h1
    simp only [groupsEvents] at h1
    cases hg : processGroup cap cl g with
    | ok ev r f w =>
      simp only [hg] at h1
      cases hrest : groupsEvents cap cl gs with
      | none =>
        simp only [hrest, Option.map_none'] at h1
        exact Option.noConfusion h1
      | some evs' =>
        simp only [hrest, Option.map_some', Option.some.injEq] at h1
        subst h1
        simp only [List.cons_append, runGroups, hg, List.append_eq]
        rw [ih (evs0 ++ ev) evs' (r, f, w) hrest]
        simp [List.append_assoc]
    | fail b =>
      simp only [hg] at h1
      exact Option.noConfusion h1
    | stuck =>
      simp only [hg] at h1
      exact Option.noConfusion h1

/-- Claim C8: a transport error or non-success API response during a
paginated fetch is fatal for the whole run.  With the groups before the
failing one completing with events `evs1`, the run returns exactly the
Step 1 error text carrying the offending pagination token, status 500;
the failing group and all groups after it contribute nothing, and the
writes of the completed groups remain recorded (no rollback). -/
theorem C8_fatal_fetch (cap : Nat) (cl : List String) (gs1 : List GroupEnv)
    (gbad : GroupEnv) (gs2 : List GroupEnv) (evs1 : List InsertEvent)
    (t : Option String) (e : String)
    (h1 : groupsEvents cap cl gs1 = some evs1)
    (h2 : groupFetch cap gbad.sources [] = .fatal t e) :
    runAgent cap cl (gs1 ++ gbad :: gs2) = some ⟨fetchErrMsg t e, 500, evs1⟩ := by
  have h := runGroups_append_fatal cap cl gbad gs2 t e h2 gs1 [] evs1 (0, 0, 0) h1
  simpa using h

/-- The sheet row of the normalized raw job that has only `job_id`
`"id1"`. -/
def rowId1 : List PyVal :=
  [some "id1", none, none, some "N/A", some "N/A", some "N/A",
   some "No description provided", some "N/A"]

/-- A group whose single filter fetches one job (`"id1"`) and writes it. -/
def gOkC8 : GroupEnv :=
  { worksheet_name := "W1",
    sources := [[Except.ok ⟨[{ job_id := some "id1" }], none⟩]],
    readResult := .ok ["job_id"],
    writeError := none }

/-- A group whose first request fails with a transport error. -/
def gBadC8 : GroupEnv :=
  { worksheet_name := "W2",
    sources := [[Except.error "503 Server Error"]],
    readResult := .ok ["job_id"],
    writeError := none }

/-- A group scheduled after the failing one; never reached. -/
def gAfterC8 : GroupEnv :=
  { worksheet_name := "W3",
    sources := [[Except.ok ⟨[], none⟩]],
    readResult := .ok ["job_id"],
    writeError := none }

/-- The insert event group `gOkC8` performs. -/
def evC8 : InsertEvent := ⟨"W1", [rowId1]⟩

/-- Witness for `C8_fatal_fetch`: group 1 succeeds and writes one row,
group 2's fetch dies, group 3 is never processed; the run answers 500
with the Step 1 text and group 1's write persists. -/
theorem C8_fatal_fetch_witness :
    groupsEvents 500 ["ITS"] [gOkC8] = some [evC8]
    ∧ groupFetch 500 gBadC8.sources [] = .fatal none "503 Server Error"
    ∧ runAgent 500 ["ITS"] [gOkC8, gBadC8, gAfterC8]
        = some ⟨fetchErrMsg none "503 Server Error", 500, [evC8]⟩ := by
  refine ⟨rfl, rfl, ?_⟩
  exact C8_fatal_fetch 500 ["ITS"] [gOkC8] gBadC8 [gAfterC8] [evC8] none
    "503 Server Error" rfl rfl

/-- Threading lemma: when every group completes, the success body reads
the counts of the last group only, while the recorded writes accumulate
over all groups. -/
theorem runGroups_append_last (cap : Nat) (cl : List String) (g : GroupEnv)
    (ev : List InsertEvent) (r f w : Nat)
    (hg : processGroup cap cl g = .ok ev r f w) :
    ∀ (gs : List GroupEnv) (evs0 evs1 : List InsertEvent) (counts : Nat × Nat × Nat),
      groupsEvents cap cl gs = some evs1 →
      runGroups cap cl (gs ++ [g]) evs0 counts
        = some ⟨successMsg r f w, 200, evs0 ++ evs1 ++ ev⟩ := by
  intro gs
  induction gs with
  | nil =>
    intro evs0 evs1 counts h1
    simp only [groupsEvents, Option.some.injEq] at h1
    subst h1
    simp only [List.nil_append, runGroups, hg]
    simp [runGroups]
  | cons g0 gs ih =>
    intro evs0 evs1 counts h1
    simp only [groupsEvents] at h1
    cases hg0 : processGroup cap cl g0 with
    | ok ev0 r0 f0 w0 =>
      simp only [hg0] at h1
      cases hrest : groupsEvents cap cl gs with
      | none =>
        simp only [hrest, Option.map_none'] at h1
        exact Option.noConfusion h1
      | some evs' =>
        simp only [hrest, Option.map_some', Option.some.injEq] at h1
        subst h1
        simp only [List.cons_append, runGroups, hg0, List.append_eq]
        rw [ih (evs0 ++ ev0) evs' (r0, f0, w0) hrest]
        simp [List.append_assoc]
    | fail b =>
      simp only [hg0] at h1
      exact Option.noConfusion h1
    | stuck =>
      simp only [hg0] at h1
      exact Option.noConfusion h1

/-- Claim C1, amended: a run that completes successfully returns the
summary built from the counts (raw fetched, post-filter, newly written)
of the LAST group processed — the loop-local count variables are
overwritten per group — while the writes of all groups persist. -/
theorem C1_last_group_summary (cap : Nat) (cl : List String) (gs : List GroupEnv)
    (g : GroupEnv) (ev evs1 : List InsertEvent) (r f w : Nat)
    (h1 : groupsEvents cap cl gs = some evs1)
    (hg : processGroup cap cl g = .ok ev r f w) :
    runAgent cap cl (gs ++ [g]) = some ⟨successMsg r f w, 200, evs1 ++ ev⟩ := by
  have h := runGroups_append_last cap cl g ev r f w hg gs [] evs1 (0, 0, 0) h1
  simpa using h

/-- First group of the C1 counterexample run: fetches, filters and
writes one job. -/
def gC1a : GroupEnv :=
  { worksheet_name := "Europe",
    sources := [[Except.ok ⟨[{ job_id := some "id1" }], none⟩]],
    readResult := .ok ["job_id"],
    writeError := none }

/-- Second (last) group of the C1 counterexample run: fetches nothing. -/
def gC1b : GroupEnv :=
  { worksheet_name := "India",
    sources := [[Except.ok ⟨[], none⟩]],
    readResult := .ok ["job_id"],
    writeError := none }

/-- The insert event group `gC1a` performs. -/
def evC1 : InsertEvent := ⟨"Europe", [rowId1]⟩

/-- Claim C1, counterexample: a successful two-group run in which the
first group fetched 1 raw job, kept 1 and wrote 1, while the last group
fetched 0.  The returned summary reports 0/0/0 — the last group's
counts, not counts covering all groups, which would have to mention the
1 raw job of conjunct 2 (and 0/0/0 differs from 1/1/1 by conjunct 3). -/
theorem C1_counterexample :
    runAgent 500 ["ITS"] [gC1a, gC1b] = some ⟨successMsg 0 0 0, 200, [evC1]⟩
    ∧ processGroup 500 ["ITS"] gC1a = .ok [evC1] 1 1 1
    ∧ successMsg 0 0 0 ≠ successMsg 1 1 1 := by
  refine ⟨rfl, rfl, by decide⟩

/-- Witness for `C1_last_group_summary` on the counterexample run: the
summary is the last group's 0/0/0 and both groups' writes persist. -/
theorem C1_last_group_summary_witness :
    groupsEvents 500 ["ITS"] [gC1a] = some [evC1]
    ∧ processGroup 500 ["ITS"] gC1b = .ok [] 0 0 0
    ∧ runAgent 500 ["ITS"] [gC1a, gC1b] = some ⟨successMsg 0 0 0, 200, [evC1]⟩ := by
  refine ⟨rfl, rfl, ?_⟩
  have h := C1_last_group_summary 500 ["ITS"] [gC1a] gC1b [] [evC1] 0 0 0 rfl rfl
  simpa using h
